import Mathlib

/-!
# Verification of the symbolic connection compiler (`pseudocomp.py`)

A shallow embedding of `openmdao.main.pseudocomp`: the `PseudoComponent`
("Connection Node") and `ParamPseudoComponent` ("Parameter-Binding Node"),
together with the expression-tree transforms `scaler_adder_xform` and
`unit_xform` that bake an affine unit conversion into the source tree at
construction time.

Machine floats of the original are modelled as exact rationals (`ℚ`); the
collaborators that live outside this package (the expression evaluator and
pretty-printer, and the physical-unit library) are modelled from the spec
where noted.
-/

namespace PseudoComp

/-- Binary arithmetic operators appearing in connection expressions
(`ast.Add`, `ast.Sub`, `ast.Mult`, `ast.Div`). -/
inductive Op where
  | add
  | sub
  | mul
  | div
deriving DecidableEq

/-- Expression trees: the fragment of the Python `ast` that the connection
compiler manipulates (`ast.Num`, variable references, `ast.BinOp`).  A
reference name is a qualified external name (for example `comp1.x`) or a
local slot name (`in0`, `out0`). -/
inductive Expr where
  | num : ℚ → Expr
  | ref : String → Expr
  | binop : Op → Expr → Expr → Expr
deriving DecidableEq

/-- Plain (unit-stripped) arithmetic evaluation of an expression tree in an
environment assigning a rational to every reference name. -/
def Expr.eval (env : String → ℚ) : Expr → ℚ
  | .num q => q
  | .ref n => env n
  | .binop .add a b => a.eval env + b.eval env
  | .binop .sub a b => a.eval env - b.eval env
  | .binop .mul a b => a.eval env * b.eval env
  | .binop .div a b => a.eval env / b.eval env

/-- All reference names of an expression, left to right, with repeats. -/
def Expr.refsAll : Expr → List String
  | .num _ => []
  | .ref n => [n]
  | .binop _ a b => a.refsAll ++ b.refsAll

/-- Keep the first occurrence of every element, preserving first-appearance
order. -/
def dedupFirst (l : List String) : List String :=
  l.foldl (fun acc x => if x ∈ acc then acc else acc ++ [x]) []

/-- Modelled from the spec: `ExprEvaluator.refs()` of the external
expression evaluator (`openmdao.main.expreval`, not part of the sources
under study) enumerates the distinct external references of an
expression, and the order of first appearance fixes the anonymized slot
numbering `in0, in1, ...`. -/
def Expr.refs (e : Expr) : List String := dedupFirst e.refsAll

/-- Whether a node is a `BinOp` (printed inside parentheses when it occurs
as an operand). -/
def Expr.isBin : Expr → Bool
  | .binop .. => true
  | _ => false

/-- Decimal text of a number, as Python `%.15g` formatting produces it for
the values this code feeds it: an integral value prints with no decimal
point (`1.0` prints as `1`).  Non-integral rationals print as a fraction,
a case the original never hits in the verified scenarios. -/
def fmtG (q : ℚ) : String :=
  if q.den = 1 then toString q.num
  else toString q.num ++ "/" ++ toString q.den

def opStr : Op → String
  | .add => "+"
  | .sub => "-"
  | .mul => "*"
  | .div => "/"

/-- Modelled from the spec: `print_node` of the external expression
pretty-printer (`openmdao.main.printexpr`, not part of the sources under
study): print a tree back to text, parenthesizing compound operands. -/
def Expr.printExpr : Expr → String
  | .num q => fmtG q
  | .ref n => n
  | .binop op a b =>
      (if a.isBin then "(" ++ a.printExpr ++ ")" else a.printExpr)
        ++ opStr op
        ++ (if b.isBin then "(" ++ b.printExpr ++ ")" else b.printExpr)

/-- First value bound to a key in an association list. -/
def lookupStr (m : List (String × String)) (k : String) : Option String :=
  (m.find? (fun p => p.1 = k)).map (fun p => p.2)

/-- Modelled from the spec: `transform_expression` of the external
expression rewriter (`openmdao.main.printexpr`): rewrite every reference
name found in the mapping to its image, simultaneously, leaving unknown
names and the rest of the tree unchanged. -/
def Expr.renameRefs (m : List (String × String)) : Expr → Expr
  | .num q => .num q
  | .ref n => .ref ((lookupStr m n).getD n)
  | .binop op a b => .binop op (a.renameRefs m) (b.renameRefs m)

/-- Source `_invert_dict`: swap keys and values of a mapping. -/
def invertMap (m : List (String × String)) : List (String × String) :=
  m.map (fun p => (p.2, p.1))

/-- Source `_get_varname`: strip a trailing index expression (`a[2]` gives `a`):
everything before the first `[`, the whole name when there is none. -/
def getVarname (name : String) : String :=
  String.mk (name.toList.takeWhile (fun c => c ≠ '['))

/-- Source `scaler_adder_xform`: rewrite `node` to the tree for
`(node + adder) * scaler`, omitting the add-node when `adder == 0` and
the multiply-node when `scaler == 1`. -/
def scaler_adder_xform (node : Expr) (scaler adder : ℚ) : Expr :=
  let newnode := if adder ≠ 0 then Expr.binop .add node (.num adder) else node
  if scaler ≠ 1 then Expr.binop .mul newnode (.num scaler) else newnode

/-- Modelled from the spec: the unit library collaborator
(`openmdao.units.units`, not part of the sources under study).  `conv u v`
returns the affine coefficients `(scale, offset)` converting unit `u` to
unit `v` (`unit.conversion_tuple_to`), or `none` when the units are
dimensionally incompatible; `mulU`/`divU` give the product and quotient
units of physical-quantity algebra. -/
structure UnitLib where
  conv : String → String → Option (ℚ × ℚ)
  mulU : String → String → String
  divU : String → String → String

/-- Modelled from the spec: the trial evaluation of the source tree with
each slot bound to a unit-tagged zero (`UnitsOnlyPQ(0., units)`) when its
metadata declares a unit and a plain zero otherwise; unit-tagged
arithmetic propagates units through the four operators as
physical-quantity algebra would, and plain numbers have no effect on the
inferred unit. -/
def inferUnit (lib : UnitLib) (slotUnits : String → Option String) :
    Expr → Option String
  | .num _ => none
  | .ref n => slotUnits n
  | .binop op a b =>
      let ua := inferUnit lib slotUnits a
      let ub := inferUnit lib slotUnits b
      match op with
      | .add | .sub =>
          match ua with
          | some u => some u
          | none => ub
      | .mul =>
          match ua, ub with
          | some x, some y => some (lib.mulU x y)
          | some x, none => some x
          | none, y => y
      | .div =>
          match ua, ub with
          | some x, some y => some (lib.divU x y)
          | some x, none => some x
          | none, y => y

/-- Source `unit_xform`: look up the conversion from `in_units` to `out_units` and
rewrite the tree to apply it; when the library signals incompatibility
(`TypeError` in the original) the error message names both units. -/
def unit_xform (lib : UnitLib) (node : Expr) (in_units out_units : String) :
    Except String Expr :=
  match lib.conv in_units out_units with
  | none => .error ("units \x27" ++ in_units
      ++ "\x27 are incompatible with assigning units of \x27"
      ++ out_units ++ "\x27")
  | some (scaler, adder) => .ok (scaler_adder_xform node scaler adder)

/-- Values a slot can hold: `None` (the initial value), a plain number, a
`PhysicalQuantity` (a number tagged with a unit), or a `UnitsAttrWrapper`
wrapping a `PhysicalQuantity`. -/
inductive PyValue where
  | none
  | num (q : ℚ)
  | pq (value : ℚ) (units : String)
  | wrapper (value : ℚ) (units : String)
deriving DecidableEq

/-- The three-way unwrap performed by `PseudoComponent.set`: a
`UnitsAttrWrapper` stores its quantity's plain value (`value.pq.value`), a
`PhysicalQuantity` stores its plain value (`value.value`), anything else is
stored unchanged. -/
def unwrapValue : PyValue → PyValue
  | .wrapper v _ => .num v
  | .pq v _ => .num v
  | v => v

/-- Whether a value carries a unit tag. -/
def PyValue.isUnitTagged : PyValue → Bool
  | .pq .. => true
  | .wrapper .. => true
  | _ => false

/-- Modelled from the spec: `evaluate_gradient` of the external expression
evaluator (`openmdao.main.expreval`): the partial derivative of the
expression with respect to the named input, evaluated at the environment. -/
def evalDeriv (env : String → ℚ) (x : String) : Expr → ℚ
  | .num _ => 0
  | .ref n => if n = x then 1 else 0
  | .binop .add a b => evalDeriv env x a + evalDeriv env x b
  | .binop .sub a b => evalDeriv env x a - evalDeriv env x b
  | .binop .mul a b => evalDeriv env x a * b.eval env + a.eval env * evalDeriv env x b
  | .binop .div a b =>
      (evalDeriv env x a * b.eval env - a.eval env * evalDeriv env x b)
        / (b.eval env * b.eval env)

/-- The state of a constructed `PseudoComponent`: the fields set by
`__init__` and mutated by `run`, `set`, `linearize`, `invalidate_deps` and
`connect`.  `srcexpr` is the rewritten source tree bound as `_srcexpr`
(the destination expression is always the single slot `out0`); `slots`
holds the dynamic attributes `in0..inK` and `out0`. -/
structure PseudoComponent where
  name : String
  inmap : List (String × String)
  inputs : List String
  outdests : List String
  valid : Bool
  srcexpr : Expr
  srcunits : Option String
  outUnits : Option String
  slots : List (String × PyValue)
  eqn : String
  J : Option (List (List ℚ))
deriving DecidableEq

/-- The `_inmap`/`varmap` loop of `__init__` starting at slot index `i`:
each reference is paired with the slot name `in<index>`. -/
def mkInmapFrom (i : Nat) : List String → List (String × String)
  | [] => []
  | r :: rs => (r, "in" ++ toString i) :: mkInmapFrom (i + 1) rs

/-- The `_inmap`/`varmap` loop of `__init__`: the i-th distinct reference
(in order of first appearance) is mapped to the slot name `in<i>`. -/
def mkInmap (srcrefs : List String) : List (String × String) :=
  mkInmapFrom 0 srcrefs

/-- Text of the destination expression; the absent destination is the
`DummyExpr` with empty text. -/
def destTextOf : Option Expr → String
  | some d => d.printExpr
  | none => ""

/-- References of the destination expression; `DummyExpr.refs()` is the
one-element list holding the empty string. -/
def destRefsOf : Option Expr → List String
  | some d => d.refs
  | none => [""]

/-- The per-slot unit metadata used by the trial evaluation: the slot
`in<i>` has the declared units of the reference it anonymizes
(`newmeta[varmap[key]] = val` in `__init__`). -/
def slotUnitsOf (inmap : List (String × String)) (srcMeta : String → Option String) :
    String → Option String := fun s =>
  match inmap.find? (fun p => p.2 = s) with
  | some p => srcMeta (getVarname p.1)
  | none => none

/-- The working source tree before unit rewriting: anonymized to slot names
when `translate` is set (`transform_expression(srcexpr.text, self._inmap)`),
otherwise the original text. -/
def baseOf (translate : Bool) (srcexpr : Expr) (inmap : List (String × String)) : Expr :=
  if translate then srcexpr.renameRefs inmap else srcexpr

/-- The state `__init__` leaves behind on success: `fin` is the final
(possibly unit-rewritten) source tree and `su` the stored inferred source
unit; the equation string maps the slot names back to the original
external names when anonymization was applied. -/
def initState (name : String) (inmap : List (String × String)) (destText : String)
    (outUnits : Option String) (translate : Bool) (fin : Expr)
    (su : Option String) : PseudoComponent :=
  let inputs := inmap.map (fun p => p.2)
  { name := name, inmap := inmap, inputs := inputs,
    outdests := if destText ≠ "" then [destText] else [], valid := false,
    srcexpr := fin, srcunits := su, outUnits := outUnits,
    slots := inputs.map (fun n => (n, PyValue.none)) ++ [("out0", PyValue.none)],
    eqn := (if destText ≠ "" then destText else "out0") ++ " = " ++
           (if translate then (fin.renameRefs (invertMap inmap)).printExpr
            else fin.printExpr),
    J := Option.none }

/-- Source `PseudoComponent.__init__`: build the node from a source expression and
an optional destination expression.  Follows the original control flow:
reject a destination referencing more than one variable; anonymize the
source references when `translate` is set; when the destination declares a
unit, infer the source unit by the unit-tagged trial evaluation and bake
the affine conversion into the tree via `unit_xform` (construction fails
with the wrapped incompatibility message when no conversion exists);
finally record the reconstructed equation text. -/
def mkPseudo (lib : UnitLib) (name : String) (srcexpr : Expr)
    (destexpr : Option Expr) (srcMeta destMeta : String → Option String)
    (translate : Bool) : Except String PseudoComponent :=
  let destText := destTextOf destexpr
  let inmap := mkInmap srcexpr.refs
  let drefs := destRefsOf destexpr
  if 1 < drefs.length then
    .error "output of PseudoComponent must reference only one variable"
  else
    match drefs with
    | [] => .error "IndexError: list index out of range"
    | dref :: _ =>
      let outUnits := destMeta (getVarname dref)
      let base := baseOf translate srcexpr inmap
      match outUnits with
      | none => .ok (initState name inmap destText Option.none translate base Option.none)
      | some ou =>
        match inferUnit lib (slotUnitsOf inmap srcMeta) base with
        | none => .error "AttributeError: float object has no attribute unit"
        | some iu =>
          match unit_xform lib base iu ou with
          | .error e => .error ("Can\x27t connect \x27" ++ srcexpr.printExpr
              ++ "\x27 to \x27" ++ destText ++ "\x27: " ++ e)
          | .ok fin => .ok (initState name inmap destText (some ou) translate fin (some iu))

/-- First value bound to a slot name. -/
def lookupSlot (l : List (String × PyValue)) (k : String) : Option PyValue :=
  (l.find? (fun p => p.1 = k)).map (fun p => p.2)

def PseudoComponent.getSlot (pc : PseudoComponent) (k : String) : Option PyValue :=
  lookupSlot pc.slots k

/-- Python `setattr` on a slot: the new binding shadows any previous one. -/
def PseudoComponent.storeSlot (pc : PseudoComponent) (k : String) (v : PyValue) :
    PseudoComponent :=
  { pc with slots := (k, v) :: pc.slots }

/-- The numeric environment the expression evaluator sees when this node is
its scope: each slot name reads as its stored plain number. -/
def PseudoComponent.slotEnv (pc : PseudoComponent) : String → ℚ := fun s =>
  match lookupSlot pc.slots s with
  | some (.num q) => q
  | _ => 0

/-- Source `PseudoComponent.run`: evaluate the (rewritten) source expression over
the current slot values and write the result into the destination slot
`out0`, then mark the node valid.  (When invalid, the original first asks
the owning graph to refresh this node's inputs via `parent.update_inputs`;
the inputs are modelled as already stored in the slots.  The defensive
`PhysicalQuantity` re-conversion branch is not taken here because `set`
always stores plain numbers, so the evaluator yields a plain number.) -/
def PseudoComponent.run (pc : PseudoComponent) : PseudoComponent :=
  let v := pc.srcexpr.eval pc.slotEnv
  { (pc.storeSlot "out0" (.num v)) with valid := true }

/-- Source `PseudoComponent.get`: direct slot access; an index argument is an
error. -/
def PseudoComponent.get (pc : PseudoComponent) (name : String)
    (index : Option Nat) : Except String PyValue :=
  match index with
  | some _ => .error "index not supported in PseudoComponent.get"
  | none =>
    match lookupSlot pc.slots name with
    | some v => .ok v
    | Option.none => .error "AttributeError"

/-- Source `PseudoComponent.set`: an index argument is an error; otherwise store
the value with unit tags stripped (`UnitsAttrWrapper` and
`PhysicalQuantity` store their plain numeric value, anything else is
stored unchanged). -/
def PseudoComponent.set (pc : PseudoComponent) (path : String) (value : PyValue)
    (index : Option Nat) : Except String PseudoComponent :=
  match index with
  | some _ => .error "index not supported in PseudoComponent.set"
  | none => .ok (pc.storeSlot path (unwrapValue value))

/-- Source `invalidate_deps`: unconditionally clears the validity flag,
whatever the arguments. -/
def PseudoComponent.invalidate_deps (pc : PseudoComponent)
    (varnames : Option (List String) := Option.none) (force : Bool := false) :
    PseudoComponent :=
  { pc with valid := false }

/-- Source `connect`: unconditionally clears the validity flag. -/
def PseudoComponent.connect (pc : PseudoComponent) (src dest : String) :
    PseudoComponent :=
  { pc with valid := false }

def PseudoComponent.is_valid (pc : PseudoComponent) : Bool := pc.valid

/-- Source `linearize`: store the single-row jacobian, the gradient of the source
expression with respect to each input slot, in input order. -/
def PseudoComponent.linearize (pc : PseudoComponent) : PseudoComponent :=
  { pc with J := some [pc.inputs.map (fun n => evalDeriv pc.slotEnv n pc.srcexpr)] }

/-- Source `provideJ`: the triple (input slot names, the output slot, jacobian);
reading `self.J` before any `linearize` is an `AttributeError`. -/
def PseudoComponent.provideJ (pc : PseudoComponent) :
    Except String (List String × List String × List (List ℚ)) :=
  match pc.J with
  | some j => .ok (pc.inputs, ["out0"], j)
  | Option.none => .error "AttributeError: J"

/-- Source `calc_derivatives`: linearize when first-order derivatives are
requested; then, when second-order derivatives are requested, raise (the
returned message).  The state component is the node as the call leaves
it — Python's raise does not roll back the `linearize` that already ran. -/
def PseudoComponent.calc_derivatives (pc : PseudoComponent)
    (first second : Bool) : PseudoComponent × Option String :=
  let pc1 := if first then pc.linearize else pc
  if second then
    (pc1, some ("2nd derivatives not supported in pseudocomponent " ++ pc1.name))
  else (pc1, Option.none)

/-- Source `list_connections`: the hidden view collapses the node away (direct
source-to-destination pairs, skipping empty source references), the
non-hidden view is the actual wiring through the node's slots. -/
def PseudoComponent.list_connections (pc : PseudoComponent)
    (is_hidden : Bool := false) : List (String × String) :=
  if is_hidden then
    match pc.outdests with
    | [] => []
    | d :: _ =>
        (pc.inmap.map (fun p => p.1)).filterMap
          (fun src => if src = "" then Option.none else some (src, d))
  else
    pc.inmap.map (fun p => (p.1, pc.name ++ "." ++ p.2))
      ++ pc.outdests.map (fun d => (pc.name ++ ".out0", d))

/-- Source `make_connections` as the graph builder uses it after construction:
every edge of the non-hidden view is added to the owning graph's edge set;
a failed construction adds nothing (no node exists to register). -/
def addToGraph (g : List (String × String)) (r : Except String PseudoComponent) :
    List (String × String) :=
  match r with
  | .error _ => g
  | .ok pc => g ++ pc.list_connections false

/-- Store a plain number into each named input slot, as the scheduler's
upstream refresh does before `run`. -/
def PseudoComponent.setInputs (pc : PseudoComponent) (vals : List (String × ℚ)) :
    PseudoComponent :=
  vals.foldl (fun c p => c.storeSlot p.1 (.num p.2)) pc

/-- Source `ParamPseudoComponent`: a `PseudoComponent` that applies a
scaler/adder to a parameter; no input connections, one or more output
targets. -/
structure ParamPseudoComponent where
  pc : PseudoComponent
  scaler : ℚ
  adder : ℚ
deriving DecidableEq

/-- The four-way canonical choice of the textual source expression in
`ParamPseudoComponent.__init__` (the `%.15g`-formatted strings of the
original are modelled as the corresponding trees; `Expr.printExpr`
recovers their text). -/
def paramSrcExpr (scaler adder : ℚ) : Expr :=
  if scaler = 1 ∧ adder = 0 then .ref "in0"
  else if scaler = 1 then .binop .add (.ref "in0") (.num adder)
  else if adder = 0 then .binop .mul (.ref "in0") (.num scaler)
  else .binop .mul (.binop .add (.ref "in0") (.num adder)) (.num scaler)

/-- Source `ParamPseudoComponent.__init__`: `None` scaler/adder default to the
identity values; the chosen source text is handed to the base constructor
with `translate=False`. -/
def mkParam (lib : UnitLib) (name : String) (target : String)
    (scaler adder : Option ℚ) (destMeta : String → Option String) :
    Except String ParamPseudoComponent :=
  let s := scaler.getD 1
  let a := adder.getD 0
  match mkPseudo lib name (paramSrcExpr s a) (some (.ref target))
      (fun _ => Option.none) destMeta false with
  | .error e => .error e
  | .ok pc => .ok { pc := pc, scaler := s, adder := a }

/-- Source `ParamPseudoComponent.add_target`: append another output target; the
expression is not re-derived. -/
def ParamPseudoComponent.add_target (p : ParamPseudoComponent) (target : String) :
    ParamPseudoComponent :=
  { p with pc := { p.pc with outdests := p.pc.outdests ++ [target] } }

/-- Source `ParamPseudoComponent.list_connections`: only output connections; the
hidden view is always empty. -/
def ParamPseudoComponent.list_connections (p : ParamPseudoComponent)
    (is_hidden : Bool := false) : List (String × String) :=
  if is_hidden then []
  else p.pc.outdests.map (fun d => (p.pc.name ++ ".out0", d))

/-! ## Concrete fixtures used by the witnesses

A two-input unit-converted connection `c = a + b` where `a` carries unit
`m`, `c` declares unit `ft`, and the (modelled) library converts `m` to
`ft` by `(scale, offset) = (2, 5)`; and a parameter binding with scaler 2
and adder 1. -/

def libW : UnitLib :=
  { conv := fun u v => if u = "m" ∧ v = "ft" then some (2, 5) else Option.none,
    mulU := fun a _ => a, divU := fun a _ => a }

def srcW : Expr := .binop .add (.ref "a") (.ref "b")

def smW : String → Option String := fun n => if n = "a" then some "m" else Option.none

def dmW : String → Option String := fun n => if n = "c" then some "ft" else Option.none

/-- The node `mkPseudo libW "_pseudo_0" srcW (some (.ref "c")) smW dmW true`
builds (checked by `rfl` in the witnesses). -/
def pcW : PseudoComponent :=
  { name := "_pseudo_0", inmap := [("a", "in0"), ("b", "in1")],
    inputs := ["in0", "in1"], outdests := ["c"], valid := false,
    srcexpr := .binop .mul (.binop .add (.binop .add (.ref "in0") (.ref "in1"))
        (.num 5)) (.num 2),
    srcunits := some "m", outUnits := some "ft",
    slots := [("in0", .none), ("in1", .none), ("out0", .none)],
    eqn := "c = ((a+b)+5)*2", J := Option.none }

/-- The node `mkParam libW "_pseudo_1" "x.value" (some 2) (some 1) _`
builds (checked by `rfl` in the witnesses). -/
def pcParamW : PseudoComponent :=
  { name := "_pseudo_1", inmap := [("in0", "in0")], inputs := ["in0"],
    outdests := ["x.value"], valid := false,
    srcexpr := .binop .mul (.binop .add (.ref "in0") (.num 1)) (.num 2),
    srcunits := Option.none, outUnits := Option.none,
    slots := [("in0", .none), ("out0", .none)],
    eqn := "x.value = (in0+1)*2", J := Option.none }

def pW : ParamPseudoComponent :=
  { pc := pcParamW, scaler := 2, adder := 1 }

/-- Destination metadata declaring the unit `s`, for which the fixture
library has no conversion from `m`. -/
def dmBadW : String → Option String := fun n => if n = "c" then some "s" else Option.none

/-- The node `mkPseudo libW "_pseudo_3" srcW Option.none smW dmW true`
builds (checked by `rfl` in the witnesses): the bare probe node with no
destination and therefore no output target. -/
def pcNoDestW : PseudoComponent :=
  { name := "_pseudo_3", inmap := [("a", "in0"), ("b", "in1")],
    inputs := ["in0", "in1"], outdests := [], valid := false,
    srcexpr := .binop .add (.ref "in0") (.ref "in1"),
    srcunits := Option.none, outUnits := Option.none,
    slots := [("in0", .none), ("in1", .none), ("out0", .none)],
    eqn := "out0 = a+b", J := Option.none }

/-- Predicate: `msg` contains `t` as a substring. -/
def strContains (msg t : String) : Prop := ∃ a b, msg = a ++ t ++ b

/-! ## Construction lemmas -/

/-- Evaluating the rewritten tree applies exactly the affine conversion
`(value + adder) * scaler`, in all four omission cases. -/
theorem eval_scaler_adder_xform (env : String → ℚ) (e : Expr) (s o : ℚ) :
    (scaler_adder_xform e s o).eval env = (e.eval env + o) * s := by
  unfold scaler_adder_xform
  by_cases ho : o = 0 <;> by_cases hs : s = 1 <;>
    simp [ho, hs, Expr.eval]

example : (scaler_adder_xform (.ref "in0") 2 5).eval (fun _ => 3) = 16 := by
  norm_num [scaler_adder_xform, Expr.eval]

example : Expr.printExpr (.binop .mul (.binop .add (.ref "in0") (.num 1)) (.num 2))
    = "(in0+1)*2" := by decide



/-- Successful construction when the destination declares no unit: the
source tree is used unmodified (after optional anonymization) and no unit
bookkeeping occurs. -/
theorem mkPseudo_ok_of_no_units (lib : UnitLib) (name : String) (src d : Expr)
    (sm dm : String → Option String) (tr : Bool) (dref : String)
    (h1 : d.refs = [dref]) (h2 : dm (getVarname dref) = Option.none) :
    mkPseudo lib name src (some d) sm dm tr =
      .ok (initState name (mkInmap src.refs) d.printExpr Option.none tr
            (baseOf tr src (mkInmap src.refs)) Option.none) := by
  simp [mkPseudo, destRefsOf, destTextOf, h1, h2]

/-- Successful construction when the destination declares a unit and the
library has a conversion: the stored source tree is the affine rewrite of
the (anonymized) source. -/
theorem mkPseudo_ok_of_units (lib : UnitLib) (name : String) (src d : Expr)
    (sm dm : String → Option String) (tr : Bool) (dref ou iu : String) (s o : ℚ)
    (h1 : d.refs = [dref]) (h2 : dm (getVarname dref) = some ou)
    (h3 : inferUnit lib (slotUnitsOf (mkInmap src.refs) sm)
            (baseOf tr src (mkInmap src.refs)) = some iu)
    (h4 : lib.conv iu ou = some (s, o)) :
    mkPseudo lib name src (some d) sm dm tr =
      .ok (initState name (mkInmap src.refs) d.printExpr (some ou) tr
            (scaler_adder_xform (baseOf tr src (mkInmap src.refs)) s o) (some iu)) := by
  simp [mkPseudo, destRefsOf, destTextOf, h1, h2, h3, h4, unit_xform]

/-- Failed construction when the library has no conversion from the
inferred source unit to the declared destination unit: the `TypeError` of
`unit_xform` wrapped in the connect message of `__init__`. -/
theorem mkPseudo_err_of_incompatible (lib : UnitLib) (name : String) (src d : Expr)
    (sm dm : String → Option String) (tr : Bool) (dref ou iu : String)
    (h1 : d.refs = [dref]) (h2 : dm (getVarname dref) = some ou)
    (h3 : inferUnit lib (slotUnitsOf (mkInmap src.refs) sm)
            (baseOf tr src (mkInmap src.refs)) = some iu)
    (h4 : lib.conv iu ou = Option.none) :
    mkPseudo lib name src (some d) sm dm tr =
      .error ("Can\x27t connect \x27" ++ src.printExpr ++ "\x27 to \x27"
        ++ d.printExpr ++ "\x27: "
        ++ ("units \x27" ++ iu ++ "\x27 are incompatible with assigning units of \x27"
            ++ ou ++ "\x27")) := by
  simp [mkPseudo, destRefsOf, destTextOf, h1, h2, h3, h4, unit_xform]

/-- Whatever branch construction succeeds through, the node starts
invalid, carries the first-appearance reference-to-slot mapping, its input
slot list in that order, and no jacobian. -/
theorem mkPseudo_ok_fields (lib : UnitLib) (name : String) (src : Expr)
    (destexpr : Option Expr) (sm dm : String → Option String) (tr : Bool)
    (pc : PseudoComponent)
    (hok : mkPseudo lib name src destexpr sm dm tr = .ok pc) :
    pc.valid = false ∧ pc.inmap = mkInmap src.refs
      ∧ pc.inputs = (mkInmap src.refs).map Prod.snd ∧ pc.J = Option.none := by
  simp only [mkPseudo] at hok
  split at hok
  · exact absurd hok (by simp)
  · split at hok
    · exact absurd hok (by simp)
    · split at hok
      · injection hok with h
        subst h
        simp [initState]
      · split at hok
        · exact absurd hok (by simp)
        · split at hok
          · exact absurd hok (by simp)
          · injection hok with h
            subst h
            simp [initState]

/-- After `run`, the destination slot holds exactly the evaluation of the
stored source expression at the pre-run slot values. -/
theorem getSlot_run (pc : PseudoComponent) :
    pc.run.getSlot "out0" = some (.num (pc.srcexpr.eval pc.slotEnv)) := by
  simp [PseudoComponent.run, PseudoComponent.getSlot, PseudoComponent.storeSlot,
    lookupSlot]

theorem setInputs_srcexpr : ∀ (vals : List (String × ℚ)) (pc : PseudoComponent),
    (pc.setInputs vals).srcexpr = pc.srcexpr
  | [], _ => rfl
  | _ :: vs, pc => setInputs_srcexpr vs (pc.storeSlot _ _)

theorem setInputs_inputs : ∀ (vals : List (String × ℚ)) (pc : PseudoComponent),
    (pc.setInputs vals).inputs = pc.inputs
  | [], _ => rfl
  | _ :: vs, pc => setInputs_inputs vs (pc.storeSlot _ _)

theorem setInputs_valid : ∀ (vals : List (String × ℚ)) (pc : PseudoComponent),
    (pc.setInputs vals).valid = pc.valid
  | [], _ => rfl
  | _ :: vs, pc => setInputs_valid vs (pc.storeSlot _ _)

example : mkPseudo libW "_pseudo_0" srcW (some (.ref "c")) smW dmW true = .ok pcW := rfl

example : mkParam libW "_pseudo_1" "x.value" (some 2) (some 1) (fun _ => Option.none)
    = .ok pW := rfl

example : mkPseudo libW "_pseudo_3" srcW Option.none smW dmW true = .ok pcNoDestW := rfl

/-! ## Claim theorems -/

/-- C1: for every valid (source expression, destination expression,
declared destination unit) triple for which a unit conversion exists,
constructing the `PseudoComponent` and then calling `run()` writes into
the destination a value equal to evaluating the source expression in
plain unit-stripped arithmetic and then applying `(value + offset) *
scale`, where `(scale, offset)` is the conversion the unit library
returns from the inferred source unit to the declared destination unit;
equivalently, the tree rewrite baked in at construction (which omits the
add-node when `offset == 0` and the multiply-node when `scale == 1`, by
`eval_scaler_adder_xform`) agrees with the library-level conversion. -/
theorem run_agrees_with_library_conversion
    (lib : UnitLib) (name : String) (src d : Expr) (sm dm : String → Option String)
    (dref ou iu : String) (s o : ℚ) (pc : PseudoComponent) (vals : List (String × ℚ))
    (h1 : d.refs = [dref]) (h2 : dm (getVarname dref) = some ou)
    (h3 : inferUnit lib (slotUnitsOf (mkInmap src.refs) sm)
            (baseOf true src (mkInmap src.refs)) = some iu)
    (h4 : lib.conv iu ou = some (s, o))
    (hok : mkPseudo lib name src (some d) sm dm true = .ok pc) :
    ((pc.setInputs vals).run).getSlot "out0"
      = some (.num (((src.renameRefs (mkInmap src.refs)).eval
            (pc.setInputs vals).slotEnv + o) * s)) := by
  rw [mkPseudo_ok_of_units lib name src d sm dm true dref ou iu s o h1 h2 h3 h4] at hok
  injection hok with h
  subst h
  rw [getSlot_run, setInputs_srcexpr]
  simp only [initState, eval_scaler_adder_xform, baseOf, if_pos]

/-- Witness for C1: destination `c` declared in `ft`, source `a+b` with
inferred unit `m`, library conversion `(scale, offset) = (2, 5)`, inputs
`a = 1`, `b = 2`. -/
theorem run_agrees_with_library_conversion_witness :
    (Expr.ref "c").refs = ["c"]
      ∧ dmW (getVarname "c") = some "ft"
      ∧ inferUnit libW (slotUnitsOf (mkInmap srcW.refs) smW)
          (baseOf true srcW (mkInmap srcW.refs)) = some "m"
      ∧ libW.conv "m" "ft" = some (2, 5)
      ∧ mkPseudo libW "_pseudo_0" srcW (some (.ref "c")) smW dmW true = .ok pcW
      ∧ ((pcW.setInputs [("in0", 1), ("in1", 2)]).run).getSlot "out0"
          = some (.num (((srcW.renameRefs (mkInmap srcW.refs)).eval
                (pcW.setInputs [("in0", 1), ("in1", 2)]).slotEnv + 5) * 2)) :=
  ⟨rfl, rfl, rfl, rfl, rfl,
    run_agrees_with_library_conversion libW "_pseudo_0" srcW (.ref "c") smW dmW
      "c" "ft" "m" 2 5 pcW [("in0", 1), ("in1", 2)] rfl rfl rfl rfl rfl⟩

/-- C3: a destination expression referencing more than one distinct
external variable fails construction with the multi-variable error, and
the failure has zero side effects: nothing is registered with the owning
graph. -/
theorem multi_variable_destination_fails
    (lib : UnitLib) (name : String) (src d : Expr)
    (sm dm : String → Option String) (tr : Bool)
    (h : 1 < d.refs.length) :
    mkPseudo lib name src (some d) sm dm tr
        = .error "output of PseudoComponent must reference only one variable"
      ∧ ∀ g, addToGraph g (mkPseudo lib name src (some d) sm dm tr) = g := by
  have he : mkPseudo lib name src (some d) sm dm tr
      = .error "output of PseudoComponent must reference only one variable" := by
    simp [mkPseudo, destRefsOf, h]
  exact ⟨he, fun g => by rw [he, addToGraph]⟩

/-- Witness for C3: the two-variable destination `p+q`. -/
theorem multi_variable_destination_fails_witness :
    1 < (Expr.binop .add (.ref "p") (.ref "q")).refs.length
      ∧ mkPseudo libW "_pseudo_2" srcW
            (some (.binop .add (.ref "p") (.ref "q"))) smW dmW true
          = .error "output of PseudoComponent must reference only one variable"
      ∧ ∀ g, addToGraph g (mkPseudo libW "_pseudo_2" srcW
            (some (.binop .add (.ref "p") (.ref "q"))) smW dmW true) = g := by
  have h := multi_variable_destination_fails libW "_pseudo_2" srcW
    (.binop .add (.ref "p") (.ref "q")) smW dmW true (by decide)
  exact ⟨by decide, h.1, h.2⟩

/-- C4: a freshly constructed node has `is_valid() == false`; after one
successful `run()` it returns true; any subsequent `invalidate_deps()` or
`connect()` unconditionally resets it to false, regardless of the
arguments those calls receive. -/
theorem validity_flag_lifecycle :
    (∀ lib name src destexpr sm dm tr pc,
        mkPseudo lib name src destexpr sm dm tr = .ok pc → pc.is_valid = false)
      ∧ (∀ pc : PseudoComponent, pc.run.is_valid = true)
      ∧ (∀ (pc : PseudoComponent) varnames force,
          (pc.invalidate_deps varnames force).is_valid = false)
      ∧ (∀ (pc : PseudoComponent) s d, (pc.connect s d).is_valid = false) := by
  refine ⟨?_, ?_, ?_, ?_⟩
  · intro lib name src destexpr sm dm tr pc hok
    exact (mkPseudo_ok_fields lib name src destexpr sm dm tr pc hok).1
  · intro pc; rfl
  · intro pc varnames force; rfl
  · intro pc s d; rfl

/-- Witness for C4: the fixture node, run once, then invalidated and
reconnected. -/
theorem validity_flag_lifecycle_witness :
    pcW.is_valid = false
      ∧ pcW.run.is_valid = true
      ∧ (pcW.run.invalidate_deps Option.none false).is_valid = false
      ∧ (pcW.run.connect "a" "c").is_valid = false :=
  ⟨validity_flag_lifecycle.1 libW "_pseudo_0" srcW (some (.ref "c")) smW dmW true pcW rfl,
   validity_flag_lifecycle.2.1 pcW,
   validity_flag_lifecycle.2.2.1 pcW.run Option.none false,
   validity_flag_lifecycle.2.2.2 pcW.run "a" "c"⟩

/-- C10: `set(path, value)` with no index unwraps unit-tagged values
before storing — a `UnitsAttrWrapper` is stored as its underlying
physical quantity's plain numeric value, a `PhysicalQuantity` as its
plain numeric value, and any other value unchanged — so a subsequent
`get(name)` with no index returns the plain (never unit-tagged) stored
value. -/
theorem set_strips_unit_tags :
    (∀ (pc : PseudoComponent) (path : String) (v : PyValue),
        pc.set path v Option.none = .ok (pc.storeSlot path (unwrapValue v)))
      ∧ (∀ (pc : PseudoComponent) (path : String) (w : PyValue),
          (pc.storeSlot path w).get path Option.none = .ok w)
      ∧ (∀ q u, unwrapValue (.wrapper q u) = .num q)
      ∧ (∀ q u, unwrapValue (.pq q u) = .num q)
      ∧ (∀ q, unwrapValue (.num q) = .num q)
      ∧ unwrapValue .none = .none
      ∧ (∀ v, (unwrapValue v).isUnitTagged = false) := by
  refine ⟨fun pc path v => rfl, ?_, fun q u => rfl, fun q u => rfl,
    fun q => rfl, rfl, ?_⟩
  · intro pc path w
    simp [PseudoComponent.get, PseudoComponent.storeSlot, lookupSlot]
  · intro v
    cases v <;> rfl

/-- C9 counterexample: a failing second-order call that also requests
first-order derivatives mutates the node state: on the freshly built
fixture node the jacobian changes from unset to set while the call
raises, so the claim that the failing call leaves the state (including
the jacobian) unchanged is false. -/
theorem calc_derivatives_state_counterexample :
    mkPseudo libW "_pseudo_0" srcW (some (.ref "c")) smW dmW true = .ok pcW
      ∧ (pcW.calc_derivatives true true).2 ≠ Option.none
      ∧ (pcW.calc_derivatives true true).1.J ≠ pcW.J := by
  refine ⟨rfl, ?_, ?_⟩ <;>
    simp [PseudoComponent.calc_derivatives, PseudoComponent.linearize, pcW]

/-- C9 (amended): `calc_derivatives` with second-order derivatives
requested always raises the unsupported-operation error, fatal to that
call only; the node state is unchanged when first-order derivatives are
not also requested; when they are, the `linearize()` that runs before the
raise has already recomputed the jacobian; `calc_derivatives` with
first-order derivatives requested invokes `linearize()`. -/
theorem calc_derivatives_second_order (pc : PseudoComponent) (second : Bool) :
    (∀ first, ∃ msg, (pc.calc_derivatives first true).2 = some msg)
      ∧ (pc.calc_derivatives false true).1 = pc
      ∧ (pc.calc_derivatives true second).1 = pc.linearize
      ∧ (pc.calc_derivatives false second).1 = pc := by
  refine ⟨fun first => ⟨_, rfl⟩, rfl, ?_, ?_⟩ <;>
    cases second <;> rfl

/-- C5: `list_connections(is_hidden=true)`: a `PseudoComponent` with at
least one output target emits exactly the direct pairs (external source
reference, destination reference), skipping the node; with no output
target it emits the empty list; with exactly one input and one output
target the hidden view is the single edge (source, destination); a
`ParamPseudoComponent` always returns the empty list for the hidden
view. -/
theorem hidden_connection_view :
    (∀ (pc : PseudoComponent) (d : String) (t : List String), pc.outdests = d :: t →
        ∀ s d2, ((s, d2) ∈ pc.list_connections true
          ↔ d2 = d ∧ s ≠ "" ∧ ∃ slot, (s, slot) ∈ pc.inmap))
      ∧ (∀ pc : PseudoComponent, pc.outdests = [] → pc.list_connections true = [])
      ∧ (∀ (pc : PseudoComponent) (s slot d : String),
          pc.inmap = [(s, slot)] → s ≠ "" → pc.outdests = [d] →
          pc.list_connections true = [(s, d)])
      ∧ (∀ p : ParamPseudoComponent, p.list_connections true = []) := by
  refine ⟨?_, ?_, ?_, fun p => rfl⟩
  · intro pc d t h s d2
    simp only [PseudoComponent.list_connections, if_pos, h, List.mem_filterMap,
      List.mem_map]
    constructor
    · rintro ⟨x, ⟨⟨a, b⟩, hab, rfl⟩, hx⟩
      by_cases hae : a = ""
      · simp [hae] at hx
      · simp only [hae, if_neg, ite_false] at hx
        injection hx with hx2
        injection hx2 with hxs hxd
        subst hxs
        subst hxd
        exact ⟨rfl, hae, b, hab⟩
    · rintro ⟨rfl, hs, slot, hslot⟩
      exact ⟨s, ⟨(s, slot), hslot, rfl⟩, by simp [hs]⟩
  · intro pc h
    simp [PseudoComponent.list_connections, h]
  · intro pc s slot d h1 h2 h3
    simp [PseudoComponent.list_connections, h1, h2, h3]

/-- Witness for C5: the fixture connection node collapses to direct
edges; the one-input parameter base node collapses to its single edge;
the probe node with no output target and the parameter node's hidden view
are empty. -/
theorem hidden_connection_view_witness :
    (("a", "c") ∈ pcW.list_connections true
        ↔ "c" = "c" ∧ "a" ≠ "" ∧ ∃ slot, ("a", slot) ∈ pcW.inmap)
      ∧ pcNoDestW.list_connections true = []
      ∧ pcParamW.list_connections true = [("in0", "x.value")]
      ∧ pW.list_connections true = [] :=
  ⟨hidden_connection_view.1 pcW "c" [] rfl "a" "c",
   hidden_connection_view.2.1 pcNoDestW rfl,
   hidden_connection_view.2.2.1 pcParamW "in0" "in0" "x.value" rfl (by decide) rfl,
   hidden_connection_view.2.2.2 pW⟩

/-- C2: when the declared destination unit is dimensionally incompatible
with the unit inferred for the source expression, construction fails with
the incompatible-units error whose message contains both unit names and
both expression texts, and no node is created: nothing is registered with
the owning graph. -/
theorem incompatible_units_fail_construction
    (lib : UnitLib) (name : String) (src d : Expr)
    (sm dm : String → Option String) (tr : Bool) (dref ou iu : String)
    (h1 : d.refs = [dref]) (h2 : dm (getVarname dref) = some ou)
    (h3 : inferUnit lib (slotUnitsOf (mkInmap src.refs) sm)
            (baseOf tr src (mkInmap src.refs)) = some iu)
    (h4 : lib.conv iu ou = Option.none) :
    ∃ msg, mkPseudo lib name src (some d) sm dm tr = .error msg
      ∧ strContains msg iu ∧ strContains msg ou
      ∧ strContains msg src.printExpr ∧ strContains msg d.printExpr
      ∧ ∀ g, addToGraph g (mkPseudo lib name src (some d) sm dm tr) = g := by
  have herr := mkPseudo_err_of_incompatible lib name src d sm dm tr dref ou iu h1 h2 h3 h4
  refine ⟨_, herr, ?_, ?_, ?_, ?_, fun g => by rw [herr, addToGraph]⟩
  · exact ⟨"Can\x27t connect \x27" ++ src.printExpr ++ "\x27 to \x27" ++ d.printExpr
        ++ "\x27: " ++ "units \x27",
      "\x27 are incompatible with assigning units of \x27" ++ ou ++ "\x27",
      by simp only [String.append_assoc]⟩
  · exact ⟨"Can\x27t connect \x27" ++ src.printExpr ++ "\x27 to \x27" ++ d.printExpr
        ++ "\x27: " ++ "units \x27" ++ iu
        ++ "\x27 are incompatible with assigning units of \x27",
      "\x27", by simp only [String.append_assoc]⟩
  · exact ⟨"Can\x27t connect \x27",
      "\x27 to \x27" ++ d.printExpr ++ "\x27: " ++ "units \x27" ++ iu
        ++ "\x27 are incompatible with assigning units of \x27" ++ ou ++ "\x27",
      by simp only [String.append_assoc]⟩
  · exact ⟨"Can\x27t connect \x27" ++ src.printExpr ++ "\x27 to \x27",
      "\x27: " ++ "units \x27" ++ iu
        ++ "\x27 are incompatible with assigning units of \x27" ++ ou ++ "\x27",
      by simp only [String.append_assoc]⟩

/-- Witness for C2: destination `c` declared in `s`, for which the
library has no conversion from the inferred source unit `m`. -/
theorem incompatible_units_fail_construction_witness :
    (Expr.ref "c").refs = ["c"]
      ∧ dmBadW (getVarname "c") = some "s"
      ∧ inferUnit libW (slotUnitsOf (mkInmap srcW.refs) smW)
          (baseOf true srcW (mkInmap srcW.refs)) = some "m"
      ∧ libW.conv "m" "s" = Option.none
      ∧ ∃ msg, mkPseudo libW "_pseudo_4" srcW (some (.ref "c")) smW dmBadW true
            = .error msg
          ∧ strContains msg "m" ∧ strContains msg "s"
          ∧ strContains msg srcW.printExpr ∧ strContains msg (Expr.ref "c").printExpr
          ∧ ∀ g, addToGraph g (mkPseudo libW "_pseudo_4" srcW (some (.ref "c"))
              smW dmBadW true) = g :=
  ⟨rfl, rfl, rfl, rfl,
    incompatible_units_fail_construction libW "_pseudo_4" srcW (.ref "c") smW dmBadW
      true "c" "s" "m" rfl rfl rfl rfl⟩

theorem mkInmapFrom_map_fst : ∀ (l : List String) (i : Nat),
    (mkInmapFrom i l).map Prod.fst = l
  | [], _ => rfl
  | _ :: rs, i => by simp [mkInmapFrom, mkInmapFrom_map_fst rs (i + 1)]

theorem mkInmapFrom_map_snd : ∀ (l : List String) (i : Nat),
    (mkInmapFrom i l).map Prod.snd
      = (List.range' i l.length).map (fun j => "in" ++ toString j)
  | [], _ => rfl
  | _ :: rs, i => by
      simp [mkInmapFrom, List.range', mkInmapFrom_map_snd rs (i + 1)]

/-- Calling `provideJ` right after `linearize`: the input slot names, the single
output slot, and the one-row jacobian in input order. -/
theorem provideJ_linearize (pc : PseudoComponent) :
    pc.linearize.provideJ
      = .ok (pc.inputs, ["out0"],
          [pc.inputs.map (fun n => evalDeriv pc.slotEnv n pc.srcexpr)]) := rfl

/-- C8: `provideJ()` returns the triple (input slot names, ("out0",),
jacobian) where the input slot ordering matches the order in which the
external references first appeared in the source expression (the order
that assigned `in0, in1, ...`), and the jacobian row's entries follow
that same ordering. -/
theorem provideJ_ordering
    (lib : UnitLib) (name : String) (src : Expr) (destexpr : Option Expr)
    (sm dm : String → Option String) (pc : PseudoComponent)
    (hok : mkPseudo lib name src destexpr sm dm true = .ok pc) :
    pc.inmap = mkInmap src.refs
      ∧ (mkInmap src.refs).map Prod.fst = src.refs
      ∧ pc.inputs = (List.range src.refs.length).map (fun i => "in" ++ toString i)
      ∧ ∀ vals, ((pc.setInputs vals).linearize).provideJ
          = .ok (pc.inputs, ["out0"],
              [pc.inputs.map (fun n =>
                  evalDeriv (pc.setInputs vals).slotEnv n pc.srcexpr)]) := by
  obtain ⟨_, him, hin, _⟩ := mkPseudo_ok_fields lib name src destexpr sm dm true pc hok
  refine ⟨him, mkInmapFrom_map_fst src.refs 0, ?_, ?_⟩
  · rw [hin, mkInmap, mkInmapFrom_map_snd, List.range_eq_range']
  · intro vals
    rw [provideJ_linearize, setInputs_inputs, setInputs_srcexpr]

/-- Witness for C8 at the fixture node. -/
theorem provideJ_ordering_witness :
    mkPseudo libW "_pseudo_0" srcW (some (.ref "c")) smW dmW true = .ok pcW
      ∧ pcW.inmap = mkInmap srcW.refs
      ∧ (mkInmap srcW.refs).map Prod.fst = srcW.refs
      ∧ pcW.inputs = (List.range srcW.refs.length).map (fun i => "in" ++ toString i)
      ∧ ((pcW.setInputs [("in0", 1), ("in1", 2)]).linearize).provideJ
          = .ok (pcW.inputs, ["out0"],
              [pcW.inputs.map (fun n =>
                  evalDeriv (pcW.setInputs [("in0", 1), ("in1", 2)]).slotEnv n
                    pcW.srcexpr)]) := by
  have h := provideJ_ordering libW "_pseudo_0" srcW (some (.ref "c")) smW dmW pcW rfl
  exact ⟨rfl, h.1, h.2.1, h.2.2.1, h.2.2.2 _⟩

/-- C7: `ParamPseudoComponent` construction chooses its textual source
expression from exactly four canonical forms depending on whether scale
and offset are identity values; in particular scaler 2 and adder 1
synthesize the source text `(in0+1)*2`, and with `in0 = 3` a `run()`
writes the value 8 to the bound target slot. -/
theorem param_canonical_source_forms :
    (∀ s a : ℚ, s = 1 → a = 0 → (paramSrcExpr s a).printExpr = "in0")
      ∧ (∀ s a : ℚ, s = 1 → a ≠ 0 → (paramSrcExpr s a).printExpr = "in0+" ++ fmtG a)
      ∧ (∀ s a : ℚ, s ≠ 1 → a = 0 → (paramSrcExpr s a).printExpr = "in0*" ++ fmtG s)
      ∧ (∀ s a : ℚ, s ≠ 1 → a ≠ 0 →
          (paramSrcExpr s a).printExpr = "(in0+" ++ fmtG a ++ ")*" ++ fmtG s)
      ∧ mkParam libW "_pseudo_1" "x.value" (some 2) (some 1) (fun _ => Option.none)
          = .ok pW
      ∧ pW.pc.srcexpr.printExpr = "(in0+1)*2"
      ∧ (pW.pc.setInputs [("in0", 3)]).run.getSlot "out0" = some (.num 8) := by
  refine ⟨?_, ?_, ?_, ?_, rfl, by decide, ?_⟩
  · rintro s a rfl rfl; rfl
  · rintro s a rfl ha
    simp only [paramSrcExpr, ha, and_false, if_false, if_pos]
    rfl
  · rintro s a hs rfl
    simp only [paramSrcExpr, hs, false_and, if_false, if_pos]
    rfl
  · rintro s a hs ha
    simp only [paramSrcExpr, hs, ha, and_false, if_false]
    simp [Expr.printExpr, Expr.isBin, opStr, String.append_assoc]
    rfl
  · rw [getSlot_run, setInputs_srcexpr]
    norm_num [pW, pcParamW, PseudoComponent.setInputs, PseudoComponent.storeSlot,
      PseudoComponent.slotEnv, lookupSlot, Expr.eval]

/-- Witness for C7: the non-identity branch at scaler 2, adder 1. -/
theorem param_canonical_source_forms_witness :
    ((2 : ℚ) ≠ 1) ∧ ((1 : ℚ) ≠ 0)
      ∧ (paramSrcExpr 2 1).printExpr = "(in0+" ++ fmtG 1 ++ ")*" ++ fmtG 2 :=
  ⟨by norm_num, by norm_num,
    param_canonical_source_forms.2.2.2.1 2 1 (by norm_num) (by norm_num)⟩

theorem foldl_dedup_mem : ∀ (l acc : List String) (r : String),
    r ∈ l.foldl (fun acc x => if x ∈ acc then acc else acc ++ [x]) acc
      ↔ r ∈ acc ∨ r ∈ l := by
  intro l
  induction l with
  | nil => intro acc r; simp
  | cons x xs ih =>
      intro acc r
      by_cases hx : x ∈ acc
      · rw [List.foldl_cons, if_pos hx, ih]
        constructor
        · rintro (h | h)
          · exact Or.inl h
          · exact Or.inr (List.mem_cons_of_mem _ h)
        · rintro (h | h)
          · exact Or.inl h
          · rcases List.mem_cons.mp h with rfl | h2
            · exact Or.inl hx
            · exact Or.inr h2
      · rw [List.foldl_cons, if_neg hx, ih]
        simp only [List.mem_append, List.mem_cons, List.mem_singleton]
        tauto

theorem foldl_dedup_nodup : ∀ (l acc : List String), acc.Nodup →
    (l.foldl (fun acc x => if x ∈ acc then acc else acc ++ [x]) acc).Nodup := by
  intro l
  induction l with
  | nil => intro acc h; exact h
  | cons x xs ih =>
      intro acc h
      by_cases hx : x ∈ acc
      · rw [List.foldl_cons, if_pos hx]
        exact ih acc h
      · rw [List.foldl_cons, if_neg hx]
        refine ih _ ?_
        simp [List.nodup_append, h, hx]

/-- Every reference occurring in the tree appears in the deduplicated
first-appearance list. -/
theorem mem_refs_of_mem_refsAll (e : Expr) (r : String) (h : r ∈ e.refsAll) :
    r ∈ e.refs :=
  (foldl_dedup_mem e.refsAll [] r).mpr (Or.inr h)

theorem refs_nodup (e : Expr) : e.refs.Nodup :=
  foldl_dedup_nodup e.refsAll [] List.nodup_nil

theorem lookupStr_cons_eq (a b : String) (m : List (String × String)) :
    lookupStr ((a, b) :: m) a = some b := by
  simp [lookupStr]

theorem lookupStr_cons_ne (a b k : String) (m : List (String × String))
    (h : ¬ a = k) : lookupStr ((a, b) :: m) k = lookupStr m k := by
  unfold lookupStr
  rw [List.find?_cons_of_neg _ (by simp [h])]

theorem invertMap_cons (p : String × String) (m : List (String × String)) :
    invertMap (p :: m) = (p.2, p.1) :: invertMap m := rfl

theorem lookupStr_mem_snd (m : List (String × String)) (k v : String)
    (h : lookupStr m k = some v) : v ∈ m.map Prod.snd := by
  unfold lookupStr at h
  obtain ⟨p, hp, hv⟩ := Option.map_eq_some'.mp h
  subst hv
  exact List.mem_map_of_mem _ (List.mem_of_find?_eq_some hp)

/-- In the first-appearance slot map, looking a reference up and then
looking the slot name up in the inverted map recovers the reference,
provided the references are distinct and the slot names are distinct. -/
theorem mkInmapFrom_roundtrip : ∀ (l : List String) (i : Nat) (r : String),
    r ∈ l → l.Nodup → ((mkInmapFrom i l).map Prod.snd).Nodup →
    ∃ v, lookupStr (mkInmapFrom i l) r = some v
      ∧ lookupStr (invertMap (mkInmapFrom i l)) v = some r := by
  intro l
  induction l with
  | nil => intro i r hr _ _; simp at hr
  | cons x xs ih =>
      intro i r hr hnd hsnd
      rcases List.mem_cons.mp hr with rfl | hr2
      · refine ⟨"in" ++ toString i, ?_, ?_⟩
        · rw [mkInmapFrom]
          exact lookupStr_cons_eq _ _ _
        · rw [mkInmapFrom, invertMap_cons]
          exact lookupStr_cons_eq _ _ _
      · have hxnotin : x ∉ xs := (List.nodup_cons.mp hnd).1
        have hne : r ≠ x := fun h => hxnotin (h ▸ hr2)
        have hsnd2 : ((mkInmapFrom (i + 1) xs).map Prod.snd).Nodup := by
          rw [mkInmapFrom] at hsnd
          exact (List.nodup_cons.mp (by simpa using hsnd)).2
        obtain ⟨v, hv1, hv2⟩ := ih (i + 1) r hr2 (List.nodup_cons.mp hnd).2 hsnd2
        have hvmem : v ∈ (mkInmapFrom (i + 1) xs).map Prod.snd :=
          lookupStr_mem_snd _ _ _ hv1
        have hvne : v ≠ "in" ++ toString i := by
          intro h
          subst h
          rw [mkInmapFrom] at hsnd
          exact (List.nodup_cons.mp (by simpa using hsnd)).1 hvmem
        refine ⟨v, ?_, ?_⟩
        · rw [mkInmapFrom, lookupStr_cons_ne x _ r _ (fun h => hne h.symm)]
          exact hv1
        · rw [mkInmapFrom, invertMap_cons,
            lookupStr_cons_ne _ x v _ (fun h => hvne h.symm)]
          exact hv2

/-- Renaming with a map and then with its inverse is the identity on
trees whose references all round-trip through the two maps. -/
theorem rename_roundtrip (m : List (String × String)) : ∀ e : Expr,
    (∀ r ∈ e.refsAll, ∃ v, lookupStr m r = some v
        ∧ lookupStr (invertMap m) v = some r) →
    (e.renameRefs m).renameRefs (invertMap m) = e
  | .num _, _ => rfl
  | .ref n, hm => by
      obtain ⟨v, hv, hv2⟩ := hm n (by simp [Expr.refsAll])
      simp [Expr.renameRefs, hv, hv2]
  | .binop op a b, hm => by
      have ha := rename_roundtrip m a (fun r hr => hm r (by simp [Expr.refsAll, hr]))
      have hb := rename_roundtrip m b (fun r hr => hm r (by simp [Expr.refsAll, hr]))
      simp [Expr.renameRefs, ha, hb]

/-- Renaming commutes with the affine rewrite (the injected nodes are
numerals, which renaming leaves alone). -/
theorem renameRefs_scaler_adder (m : List (String × String)) (e : Expr) (s o : ℚ) :
    (scaler_adder_xform e s o).renameRefs m = scaler_adder_xform (e.renameRefs m) s o := by
  unfold scaler_adder_xform
  split_ifs <;> simp [Expr.renameRefs]

/-- Anonymizing a source tree with its own first-appearance slot map and
mapping the slot names back recovers the original tree. -/
theorem mkInmap_rename_roundtrip (e : Expr)
    (hnd : ((mkInmap e.refs).map Prod.snd).Nodup) :
    (e.renameRefs (mkInmap e.refs)).renameRefs (invertMap (mkInmap e.refs)) = e :=
  rename_roundtrip _ e (fun r hr =>
    mkInmapFrom_roundtrip e.refs 0 r (mem_refs_of_mem_refsAll e r hr) (refs_nodup e) hnd)

/-- C6 counterexample: for the fixture connection, whose unit conversion
has scale 2 and offset 5, the stored equation text is the
post-unit-rewrite equation `c = ((a+b)+5)*2` and differs from the
pre-unit-rewrite equation `c = a+b` that the claim prescribes. -/
theorem equation_text_counterexample :
    mkPseudo libW "_pseudo_0" srcW (some (.ref "c")) smW dmW true = .ok pcW
      ∧ pcW.eqn ≠ (Expr.ref "c").printExpr ++ " = " ++ srcW.printExpr
      ∧ (Expr.ref "c").printExpr ++ " = " ++ srcW.printExpr = "c = a+b"
      ∧ pcW.eqn = "c = ((a+b)+5)*2" :=
  ⟨rfl, by decide, by decide, rfl⟩

/-- C6 (amended): for every constructed PseudoComponent, and independent
of whether anonymization was applied at construction, the stored equation
text is `"<destination-text> = <source-text-with-original-names>"` where
the source text is that of the POST-unit-rewrite tree (with the
anonymized slot names mapped back to the original external names when
anonymization was applied): with no declared destination unit it is
exactly the original source text, and with a unit conversion
`(scale, offset)` it is the original source with the affine rewrite
applied. -/
theorem equation_text_reconstruction
    (lib : UnitLib) (name : String) (src d : Expr) (sm dm : String → Option String)
    (tr : Bool) (dref : String)
    (hnd : ((mkInmap src.refs).map Prod.snd).Nodup)
    (h1 : d.refs = [dref]) (hd : d.printExpr ≠ "") :
    (∀ pc, dm (getVarname dref) = Option.none →
        mkPseudo lib name src (some d) sm dm tr = .ok pc →
        pc.eqn = d.printExpr ++ " = " ++ src.printExpr)
      ∧ (∀ pc ou iu s o, dm (getVarname dref) = some ou →
          inferUnit lib (slotUnitsOf (mkInmap src.refs) sm)
            (baseOf tr src (mkInmap src.refs)) = some iu →
          lib.conv iu ou = some (s, o) →
          mkPseudo lib name src (some d) sm dm tr = .ok pc →
          pc.eqn = d.printExpr ++ " = " ++ (scaler_adder_xform src s o).printExpr) := by
  constructor
  · intro pc h2 hok
    rw [mkPseudo_ok_of_no_units lib name src d sm dm tr dref h1 h2] at hok
    injection hok with h
    subst h
    cases tr
    · simp [initState, baseOf, hd]
    · simp only [initState, baseOf, if_true, hd, ne_eq, not_false_eq_true, ite_true]
      rw [mkInmap_rename_roundtrip src hnd]
  · intro pc ou iu s o h2 h3 h4 hok
    rw [mkPseudo_ok_of_units lib name src d sm dm tr dref ou iu s o h1 h2 h3 h4] at hok
    injection hok with h
    subst h
    cases tr
    · simp [initState, baseOf, hd]
    · simp only [initState, baseOf, if_true, hd, ne_eq, not_false_eq_true, ite_true]
      rw [renameRefs_scaler_adder, mkInmap_rename_roundtrip src hnd]

/-- Witness for the amended C6: once at the unit-converted fixture, where
anonymization is applied, and once at the parameter fixture, built with
`translate = false` so no anonymization is applied. -/
theorem equation_text_reconstruction_witness :
    ((mkInmap srcW.refs).map Prod.snd).Nodup
      ∧ (Expr.ref "c").refs = ["c"]
      ∧ (Expr.ref "c").printExpr ≠ ""
      ∧ mkPseudo libW "_pseudo_0" srcW (some (.ref "c")) smW dmW true = .ok pcW
      ∧ pcW.eqn = (Expr.ref "c").printExpr ++ " = "
          ++ (scaler_adder_xform srcW 2 5).printExpr
      ∧ mkPseudo libW "_pseudo_1" (paramSrcExpr 2 1) (some (.ref "x.value"))
          (fun _ => Option.none) (fun _ => Option.none) false = .ok pcParamW
      ∧ pcParamW.eqn = (Expr.ref "x.value").printExpr ++ " = "
          ++ (paramSrcExpr 2 1).printExpr := by
  refine ⟨by decide, rfl, by decide, rfl, ?_, rfl, ?_⟩
  · exact (equation_text_reconstruction libW "_pseudo_0" srcW (.ref "c") smW dmW
      true "c" (by decide) rfl (by decide)).2 pcW "ft" "m" 2 5 rfl rfl rfl rfl
  · exact (equation_text_reconstruction libW "_pseudo_1" (paramSrcExpr 2 1)
      (.ref "x.value") (fun _ => Option.none) (fun _ => Option.none) false
      "x.value" (by decide) rfl (by decide)).1 pcParamW rfl rfl

end PseudoComp
